import Mathlib

/-!
Verification development for the candidate-matching engine
(matching_system.py, class FreeCandidateMatchingSystem).

Embedding conventions:
* Python floats are idealized as rationals (ℚ); the float value +infinity,
  which arises only as a distance, is modelled by `none : Option ℚ`.
* Python strings are Lean `String`; text-level routines work on `List Char`.
* External collaborators (the geocoding service, the geodesic-distance
  routine of geopy, and the optional spaCy entity tagger) are modelled as
  oracle parameters bundled in `Sys`: the source only consumes their
  results, so any oracle instantiation is a possible run.
* Fallible operations return sum types; Python dict results with distinct
  shapes (`success: False` error dicts vs. report dicts) become `FindResult`.
* The Python regular expressions of the extraction code are embedded by a
  small list-of-successes matcher whose alternatives are produced in exactly
  the backtracking preference order of the `re` module (greedy quantifiers
  longest first, lazy quantifiers shortest first, alternation left first,
  leftmost match wins, `findall` scans non-overlapping matches left to
  right).  All quantifiers in the source patterns range over single
  character classes, so this compilation is direct.
* `list.sort(key=..., reverse=True)` is a stable sort; it is modelled by
  `List.insertionSort`, which is stable, with the reversed comparison.
-/

/-! ### Basic string machinery -/

/-- Matches Python `needle == hay[:len(needle)]`: the needle occurs at the
start of the haystack. -/
def segAt : List Char → List Char → Bool
  | [], _ => true
  | _ :: _, [] => false
  | a :: as, b :: bs => a == b && segAt as bs

/-- Python substring containment `needle in hay` on char lists. -/
def hasSeg (needle : List Char) : List Char → Bool
  | [] => segAt needle []
  | c :: t => segAt needle (c :: t) || hasSeg needle t

/-- Python `needle in hay` for strings. -/
def strIn (needle hay : String) : Bool :=
  hasSeg needle.toList hay.toList

/-- Python `str.strip()`: drop whitespace from both ends. -/
def stripChars (l : List Char) : List Char :=
  ((l.dropWhile Char.isWhitespace).reverse.dropWhile Char.isWhitespace).reverse

/-- Python `str.strip()` on strings. -/
def pyStrip (s : String) : String :=
  ⟨stripChars s.toList⟩

/-- Python `str.isdigit()` (ASCII): nonempty and all digits. -/
def isDigitStr (l : List Char) : Bool :=
  !l.isEmpty && l.all Char.isDigit

/-- Python `int(...)` on a digit string. -/
def natOfDigits (l : List Char) : Nat :=
  l.foldl (fun acc c => 10 * acc + (c.toNat - 48)) 0

/-- Python `str.lower()` (ASCII), as a per-character map. -/
def pyLower (s : String) : String :=
  ⟨s.data.map Char.toLower⟩

/-- Python `str.split()` with no separator: the maximal non-empty runs of
non-whitespace characters. -/
def pyTokensAux (cur : List Char) : List Char → List (List Char)
  | [] => if cur.isEmpty then [] else [cur.reverse]
  | c :: t =>
    if c.isWhitespace then
      if cur.isEmpty then pyTokensAux [] t
      else cur.reverse :: pyTokensAux [] t
    else pyTokensAux (c :: cur) t

/-- The word list `text.lower().split()`. -/
def pyWords (t : String) : List String :=
  (pyTokensAux [] (pyLower t).toList).map String.mk

/-! ### Fixed vocabularies (source lines 58-72) -/

/-- The fixed known-skill vocabulary `self.tech_skills`, in source order.
The source stores it as a Python set; only membership and iteration are
used, and every result below is independent of iteration order. -/
def techSkills : List String :=
  ["python", "java", "javascript", "react", "angular", "vue", "node.js", "django",
   "flask", "fastapi", "sql", "mysql", "postgresql", "mongodb", "redis", "aws",
   "azure", "gcp", "docker", "kubernetes", "git", "jenkins", "terraform", "ansible",
   "machine learning", "deep learning", "tensorflow", "pytorch", "scikit-learn",
   "data science", "pandas", "numpy", "matplotlib", "seaborn", "tableau", "powerbi",
   "html", "css", "bootstrap", "sass", "webpack", "babel", "typescript", "graphql",
   "rest api", "microservices", "agile", "scrum", "devops", "ci/cd", "testing",
   "selenium", "junit", "pytest", "cypress", "linux", "unix", "bash", "powershell"]

/-- The fixed seniority level table `self.position_levels`. -/
def positionLevels : List (String × Nat) :=
  [("intern", 1), ("junior", 2), ("associate", 3), ("mid-level", 4), ("senior", 5),
   ("lead", 6), ("principal", 7), ("manager", 8), ("director", 9), ("vp", 10),
   ("cto", 10), ("ceo", 10)]

/-! ### Text similarity (source lines 296-308) -/

/-- The word set of a text: lower-cased, whitespace-tokenized (Python
`text.lower().split()` discards empty tokens), as a finite set. -/
def wordSet (t : String) : Finset String :=
  (pyWords t).toFinset

/-- `calculate_text_similarity`: Jaccard similarity of the word sets, with
the union-is-zero guard returning 0. -/
def calculate_text_similarity (text1 text2 : String) : ℚ :=
  let words1 := wordSet text1
  let words2 := wordSet text2
  let intersection := (words1 ∩ words2).card
  let union := (words1 ∪ words2).card
  if 0 < union then (intersection : ℚ) / (union : ℚ) else 0

/-! ### Seniority scoring (source lines 280-294) -/

/-- `calculate_position_score`: running maximum over the level table,
initialized at 1.0, over each position string (lower-cased). -/
def calculate_position_score (positions : List String) : ℚ :=
  match positions with
  | [] => 1
  | _ =>
      positions.foldl
        (fun ms position =>
          positionLevels.foldl
            (fun ms' ls =>
              if strIn ls.1 (pyLower position) then max ms' ((ls.2 : ℚ) / 10) else ms')
            ms)
        1

/-! ### Geocoding and distance (source lines 240-264) -/

/-- Outcome of one call to the external geocoding service: a resolved
coordinate pair, a `None` result, or a raised exception. -/
inductive GeoOutcome where
  | found (lat lon : ℚ)
  | notFound
  | raised
deriving DecidableEq

/-- The external collaborators of the matching system, supplied as oracles:
the geocoder, geopy's geodesic mile distance, and the optional spaCy
model (`none` selects the fallback extraction strategy). -/
structure NLPModel where
  orgs : String → List String
  positionsOf : String → List String

structure Sys where
  nlp : Option NLPModel
  geocode : String → GeoOutcome
  geodesicMiles : (ℚ × ℚ) → (ℚ × ℚ) → ℚ

/-- `get_coordinates`: a geocoding failure of either kind (no result or a
raised exception, which the source catches) yields `(None, None)`. -/
def get_coordinates (sys : Sys) (location : String) : Option ℚ × Option ℚ :=
  match sys.geocode location with
  | .found lat lon => (some lat, some lon)
  | .notFound => (none, none)
  | .raised => (none, none)

/-- Python truthiness of an optional float: `None` and `0.0` are falsy. -/
def pyTruthy : Option ℚ → Bool
  | none => false
  | some x => x ≠ 0

/-- `calculate_distance`: miles between two location strings, `none`
standing for the float `+infinity`.  The source guards on the truthiness
of each latitude (`if coords1[0] and coords2[0]`). -/
def calculate_distance (sys : Sys) (loc1 loc2 : String) : Option ℚ :=
  let coords1 := get_coordinates sys loc1
  let coords2 := get_coordinates sys loc2
  if pyTruthy coords1.1 && pyTruthy coords2.1 then
    some (sys.geodesicMiles (coords1.1.getD 0, coords1.2.getD 0)
          (coords2.1.getD 0, coords2.2.getD 0))
  else
    none

/-- The distance signal `max(0, 1 - distance/1000)` of
`calculate_matching_score`; on the float `+infinity` the Python expression
evaluates to `max(0, -inf) = 0`. -/
def distanceScoreOf : Option ℚ → ℚ
  | none => 0
  | some d => max 0 (1 - d / 1000)

/-! ### Regex matcher

A list-of-successes matcher.  A `Pat` returns every way of matching a
chunk of input, in the exact preference order of Python backtracking; the
head of the list is the match the `re` module produces. -/

@[reducible] def Pat (α : Type) : Type := List Char → List (α × List Char)

instance : Monad Pat where
  pure a := fun s => [(a, s)]
  bind p f := fun s => (p s).flatMap (fun ar => f ar.1 ar.2)

/-- Consume one character of a class. -/
def pChar (cls : Char → Bool) : Pat Char := fun s =>
  match s with
  | [] => []
  | c :: t => if cls c then [(c, t)] else []

/-- Consume a literal. -/
def pLit (l : List Char) : Pat Unit := fun s =>
  if segAt l s then [((), s.drop l.length)] else []

def litS (s : String) : Pat Unit := pLit s.toList

/-- Ordered alternation, left alternative preferred. -/
def pAlt (p q : Pat α) : Pat α := fun s => p s ++ q s

/-- Length of the maximal class run at the head of the input. -/
def runLen (cls : Char → Bool) (s : List Char) : Nat := (s.takeWhile cls).length

/-- Greedy repetition of a character class, at least `m` repeats: the
alternatives are the runs of length `n, n-1, ..., m`, longest first. -/
def pClsRep (cls : Char → Bool) (m : Nat) : Pat (List Char) := fun s =>
  let n := runLen cls s
  if n < m then []
  else (List.range (n - m + 1)).map (fun i => (s.take (n - i), s.drop (n - i)))

/-- Lazy repetition (`+?`), at least `m` repeats, shortest first. -/
def pClsRepLazy (cls : Char → Bool) (m : Nat) : Pat (List Char) := fun s =>
  let n := runLen cls s
  if n < m then []
  else (List.range (n - m + 1)).map (fun i => (s.take (m + i), s.drop (m + i)))

/-- Greedy option: the with-branch is preferred. -/
def pOpt (p : Pat α) : Pat (Option α) := fun s =>
  ((p s).map (fun ar => (some ar.1, ar.2))) ++ [(none, s)]

/-- First (preferred) match anchored at the head of the input, together
with the number of characters consumed. -/
def matchHere (p : Pat α) (s : List Char) : Option (α × Nat) :=
  match p s with
  | [] => none
  | (a, rest) :: _ => some (a, s.length - rest.length)

/-- `re.findall`: scan start positions left to right, taking non-overlapping
preferred matches.  (Every pattern below consumes at least one character on
a successful match.) -/
def findAllAux (p : Pat α) : Nat → List Char → List α
  | _, [] => (match matchHere p [] with | some (a, _) => [a] | none => [])
  | 0, _ :: _ => []
  | fuel + 1, c :: t =>
    match matchHere p (c :: t) with
    | some (a, n) => a :: findAllAux p fuel ((c :: t).drop (max n 1))
    | none => findAllAux p fuel t

def findAll (p : Pat α) (s : List Char) : List α := findAllAux p s.length s

/-! ### The year-extraction patterns (source lines 114-120) -/

def spacePlus : Pat (List Char) := pClsRep Char.isWhitespace 1
def digitPlus : Pat (List Char) := pClsRep Char.isDigit 1
def phraseCls (c : Char) : Bool := c.isAlpha || c.isWhitespace || c == '-' || c == '.'
def posCls (c : Char) : Bool := c.isAlpha || c.isWhitespace

/-- The regex piece `years?`. -/
def yearsLit : Pat Unit := do
  litS "year"
  _ ← pOpt (litS "s")
  pure ()

/-- Pattern 1: `(\d+)\s+years?\s+(?:of\s+)?(?:experience\s+(?:in\s+|with\s+)?)?([a-zA-Z\s\-\.]+)` -/
def pat1 : Pat (List Char × List Char) := do
  let d ← digitPlus
  _ ← spacePlus
  yearsLit
  _ ← spacePlus
  _ ← pOpt (do litS "of"; _ ← spacePlus; pure ())
  _ ← pOpt (do
        litS "experience"
        _ ← spacePlus
        _ ← pOpt (pAlt (do litS "in"; _ ← spacePlus; pure ())
                       (do litS "with"; _ ← spacePlus; pure ()))
        pure ())
  let ph ← pClsRep phraseCls 1
  pure (d, ph)

/-- Pattern 2: `([a-zA-Z\s\-\.]+)\s+for\s+(\d+)\s+years?` -/
def pat2 : Pat (List Char × List Char) := do
  let ph ← pClsRep phraseCls 1
  _ ← spacePlus
  litS "for"
  _ ← spacePlus
  let d ← digitPlus
  _ ← spacePlus
  yearsLit
  pure (ph, d)

/-- Pattern 3: `(\d+)\+?\s+years?\s+([a-zA-Z\s\-\.]+)` -/
def pat3 : Pat (List Char × List Char) := do
  let d ← digitPlus
  _ ← pOpt (litS "+")
  _ ← spacePlus
  yearsLit
  _ ← spacePlus
  let ph ← pClsRep phraseCls 1
  pure (d, ph)

/-- Pattern 4: `([a-zA-Z\s\-\.]+)\s+(\d+)\+?\s+years?` -/
def pat4 : Pat (List Char × List Char) := do
  let ph ← pClsRep phraseCls 1
  _ ← spacePlus
  let d ← digitPlus
  _ ← pOpt (litS "+")
  _ ← spacePlus
  yearsLit
  pure (ph, d)

def yearPatterns : List (Pat (List Char × List Char)) := [pat1, pat2, pat3, pat4]

/-! ### extract_years_of_experience (source lines 101-137) -/

/-- One regex match contributes, for every vocabulary skill that the
trimmed captured phrase contains or is contained in, one (skill, years)
pair (the source's inner tech-skill loop).  The branch on `isdigit` of the
first capture mirrors the source exactly. -/
def contribsOfMatch (m : List Char × List Char) : List (String × Nat) :=
  let yearsSkill : Nat × List Char :=
    if isDigitStr m.1 then (natOfDigits m.1, stripChars m.2)
    else (natOfDigits m.2, stripChars m.1)
  let skillClean : List Char := yearsSkill.2
  (techSkills.filter
      (fun t => hasSeg t.toList skillClean || hasSeg skillClean t.toList)).map
    (fun t => (t, yearsSkill.1))

/-- All (skill, years) contributions of a text, in source loop order:
pattern-major, match order, vocabulary order. -/
def yearContribs (text : String) : List (String × Nat) :=
  let low := (pyLower text).toList
  yearPatterns.flatMap (fun p => (findAll p low).flatMap contribsOfMatch)

/-- Association-list lookup, standing for Python dict key access. -/
def alookup (m : List (String × Nat)) (k : String) : Option Nat :=
  match m with
  | [] => none
  | p :: t => if p.1 = k then some p.2 else alookup t k

/-- Dict update `d[k] = max(d.get(k, 0), v)` on an association list. -/
def updMax (m : List (String × Nat)) (k : String) (v : Nat) : List (String × Nat) :=
  if (alookup m k).isSome then
    m.map (fun q => if q.1 = k then (q.1, max q.2 v) else q)
  else m ++ [(k, v)]

/-- `extract_years_of_experience`, as the mapping skill to years (an
association list standing for the Python dict). -/
def extract_years_of_experience (text : String) : List (String × Nat) :=
  (yearContribs text).foldl (fun m c => updMax m c.1 c.2) []

def lookupYears (m : List (String × Nat)) (k : String) : Option Nat := alookup m k

/-! ### Skill-mention extraction (source lines 139-238) -/

structure SkillMention where
  skill : String
  years : Option Nat
  company : Option String
  position : Option String
deriving DecidableEq

/-- The shared final loop of both extraction strategies (source lines
180-190 and 227-236): one mention per vocabulary skill literally present
in the lower-cased text, each carrying the years lookup and the first
extracted company and position. -/
def mkMentions (skillsYears : List (String × Nat)) (companies positions : List String)
    (textLower : String) : List SkillMention :=
  (techSkills.filter (fun sk => strIn sk textLower)).map
    (fun sk => ⟨sk, lookupYears skillsYears sk, companies.head?, positions.head?⟩)

def upperCls (c : Char) : Bool := c.isUpper
def compCls (c : Char) : Bool := c.isAlpha || c.isWhitespace || c == '&' || c == '.'
def termCls (c : Char) : Bool := c.isWhitespace || c == ',' || c == '.'

/-- Company pattern `(?:at|@|with)\s+([A-Z][a-zA-Z\s&\.]+?)(?:\s|,|\.|\n)`
(the terminator class is `\s`, comma, dot or newline; newline is already
whitespace). -/
def compPat1 : Pat (List Char) := do
  pAlt (litS "at") (pAlt (litS "@") (litS "with"))
  _ ← spacePlus
  let u ← pChar upperCls
  let rest ← pClsRepLazy compCls 1
  _ ← pChar termCls
  pure (u :: rest)

/-- Company pattern `([A-Z][a-zA-Z\s&\.]{2,})\s+(?:inc|corp|llc|ltd)`. -/
def compPat2 : Pat (List Char) := do
  let u ← pChar upperCls
  let rest ← pClsRep compCls 2
  _ ← spacePlus
  pAlt (litS "inc") (pAlt (litS "corp") (pAlt (litS "llc") (litS "ltd")))
  pure (u :: rest)

/-- The fallback company extraction (source lines 207-215), run on the
original (not lower-cased) text; stripped matches of length > 2. -/
def extractCompaniesBasic (text : String) : List String :=
  let s := text.toList
  ([compPat1, compPat2].flatMap (fun p => findAll p s)).filterMap
    (fun m =>
      let st := stripChars m
      if 2 < st.length then some (String.mk st) else none)

def positionKeywords : List String :=
  ["engineer", "developer", "manager", "analyst", "specialist",
   "coordinator", "director", "lead", "senior", "junior"]

/-- Position pattern `([a-zA-Z\s]*KEYWORD[a-zA-Z\s]*)`, run on the
lower-cased text. -/
def posPat (kw : String) : Pat (List Char) := do
  let a ← pClsRep posCls 0
  litS kw
  let b ← pClsRep posCls 0
  pure (a ++ kw.toList ++ b)

/-- The fallback position extraction (source lines 218-225): stripped
matches, keyword-major order. -/
def extractPositionsBasic (textLower : String) : List String :=
  let s := textLower.toList
  (positionKeywords.flatMap (fun kw => findAll (posPat kw) s)).map
    (fun m => String.mk (stripChars m))

/-- `extract_skills_basic` (the fallback strategy).  The source returns a
dict `{"skills": found_skills}`; the mention list is modelled directly. -/
def extract_skills_basic (text : String) : List SkillMention :=
  let textLower := pyLower text
  let skillsYears := extract_years_of_experience text
  let companies := extractCompaniesBasic text
  let positions := extractPositionsBasic textLower
  mkMentions skillsYears companies positions textLower

/-- The entity-tagger strategy (source lines 154-191): organization names
come from named-entity recognition and position windows from the tagger's
tokenization, both external, hence oracles of the `NLPModel`; the skill
loop is the same shared loop. -/
def extract_skills_tagger (nlp : NLPModel) (text : String) : List SkillMention :=
  let skillsYears := extract_years_of_experience text
  mkMentions skillsYears (nlp.orgs text) (nlp.positionsOf text) (pyLower text)

/-- `extract_skills_with_spacy`: strategy selection by tagger availability. -/
def extract_skills_with_spacy (nlp : Option NLPModel) (text : String) : List SkillMention :=
  match nlp with
  | some m => extract_skills_tagger m text
  | none => extract_skills_basic text

/-! ### Feature building (source lines 266-380) -/

structure CompanyRow where
  company_name : String
  ranking : Int
deriving DecidableEq

/-- `get_company_ranking` (source lines 266-278): first case-insensitive
substring match in table order, defaulting to 1. -/
def get_company_ranking (company_name : Option String)
    (companies_df : Option (List CompanyRow)) : Int :=
  match companies_df, company_name with
  | none, _ => 1
  | some _, none => 1
  | some rows, some name =>
    let clean := pyStrip (pyLower name)
    match rows.find? (fun r => strIn clean (pyLower r.company_name)) with
    | some r => r.ranking
    | none => 1

structure CandInput where
  profile_details : String
  location : String
  benefits_requirements : String
  corporate_culture : String
deriving DecidableEq

structure CandidateFeatures where
  profile_text : String
  location : String
  benefits_requirements : String
  corporate_culture : String
  avg_years_experience : ℚ
  max_company_ranking : Int
  position_score : ℚ
  skill_count : Nat
  skills : List SkillMention
deriving DecidableEq

/-- `np.mean` on a nonempty list of rationals. -/
def listMean (l : List ℚ) : ℚ := l.sum / (l.length : ℚ)

/-- `create_candidate_features` (source lines 310-348). -/
def create_candidate_features (nlp : Option NLPModel) (candidate : CandInput)
    (companies_df : Option (List CompanyRow)) : CandidateFeatures :=
  let skills := extract_skills_with_spacy nlp candidate.profile_details
  let avg_years : ℚ :=
    if skills.isEmpty then 0
    else
      let years_list := skills.filterMap (fun s => s.years)
      if years_list.isEmpty then 0 else listMean (years_list.map (fun n => (n : ℚ)))
  let max_ranking : Int :=
    if skills.isEmpty then 1
    else
      match (skills.filterMap (fun s => s.company)).map
              (fun c => get_company_ranking (some c) companies_df) with
      | [] => 1
      | h :: t => t.foldl max h
  let position_score : ℚ :=
    if skills.isEmpty then 1
    else calculate_position_score (skills.filterMap (fun s => s.position))
  { profile_text := candidate.profile_details
    location := candidate.location
    benefits_requirements := candidate.benefits_requirements
    corporate_culture := candidate.corporate_culture
    avg_years_experience := avg_years
    max_company_ranking := max_ranking
    position_score := position_score
    skill_count := skills.length
    skills := skills }

structure JobInput where
  job_requirements : String
  location : Option String
deriving DecidableEq

structure JobFeatures where
  job_requirements : String
  location : String
  required_years : ℚ
  required_seniority : ℚ
  required_skill_count : Nat
  skills : List SkillMention
deriving DecidableEq

/-- `create_job_features` (source lines 350-380); the seniority scan is a
direct pass over the level table against the lower-cased requirements,
with running maximum initialized at 1.0. -/
def create_job_features (nlp : Option NLPModel) (job : JobInput) : JobFeatures :=
  let skills := extract_skills_with_spacy nlp job.job_requirements
  let required_years : ℚ :=
    if skills.isEmpty then 0
    else
      let years_list := skills.filterMap (fun s => s.years)
      if years_list.isEmpty then 0 else listMean (years_list.map (fun n => (n : ℚ)))
  let low := pyLower job.job_requirements
  let required_seniority : ℚ :=
    positionLevels.foldl
      (fun rs ls => if strIn ls.1 low then max rs ((ls.2 : ℚ) / 10) else rs) 1
  { job_requirements := job.job_requirements
    location := job.location.getD "Unknown"
    required_years := required_years
    required_seniority := required_seniority
    required_skill_count := skills.length
    skills := skills }

/-! ### Scoring (source lines 382-420) -/

/-- `calculate_matching_score`: the weighted sum of the four signals. -/
def calculate_matching_score (sys : Sys) (cf : CandidateFeatures) (jf : JobFeatures) : ℚ :=
  let text_similarity := calculate_text_similarity cf.profile_text jf.job_requirements
  let candidate_skills := (cf.skills.map (fun s => s.skill)).toFinset
  let job_skills := (jf.skills.map (fun s => s.skill)).toFinset
  let skills_overlap : ℚ :=
    if 0 < job_skills.card then
      ((candidate_skills ∩ job_skills).card : ℚ) / (job_skills.card : ℚ)
    else 0.5
  let experience_score : ℚ :=
    max 0 (1 - |cf.avg_years_experience - jf.required_years| / 10)
  let distance := calculate_distance sys cf.location jf.location
  let distance_score := distanceScoreOf distance
  text_similarity * 0.4 + skills_overlap * 0.3 + experience_score * 0.2 + distance_score * 0.1

/-! ### Skills-coverage analysis (source lines 422-447) -/

structure SkillsAnalysis where
  sought_skills : List String
  available_skills : List String
  matching_skills : List String
  missing_skills : List String
  skills_coverage : ℚ
deriving DecidableEq

/-- `extract_skills_analysis`.  The source materializes the candidate
union as `list(set(...))`, whose order is unspecified; it is modelled by
`dedup`, and only membership in it is consumed. -/
def extract_skills_analysis (nlp : Option NLPModel) (candidates : List String)
    (job_requirements : String) : SkillsAnalysis :=
  let sought := (extract_skills_with_spacy nlp job_requirements).map (fun s => s.skill)
  let allSkills :=
    candidates.flatMap
      (fun profile => (extract_skills_with_spacy nlp profile).map (fun s => s.skill))
  let available := allSkills.dedup
  let matching := sought.filter (fun s => available.contains s)
  let missing := sought.filter (fun s => !(available.contains s))
  { sought_skills := sought
    available_skills := available
    matching_skills := matching
    missing_skills := missing
    skills_coverage :=
      if sought.isEmpty then 0 else (matching.length : ℚ) / (sought.length : ℚ) }

/-! ### Ranking (source lines 449-502) -/

structure CandidateRow where
  id : String
  name : Option String
  profile_details : String
  location : String
  benefits_requirements : String
  corporate_culture : String
deriving DecidableEq

structure JobRow where
  id : String
  job_requirements : String
  location : Option String
deriving DecidableEq

structure MatchResult where
  candidate_id : String
  candidate_name : String
  score : ℚ
  location : String
  profile_details : String
deriving DecidableEq

structure MatchReport where
  job_id : String
  job_requirements : String
  top_matches : List MatchResult
  skills_analysis : SkillsAnalysis
deriving DecidableEq

/-- The two result shapes of `find_top_matches`: the error dict
`{'success': False, 'error': ...}` and the report dict. -/
inductive FindResult where
  | failure (error : String)
  | report (r : MatchReport)
deriving DecidableEq

def FindResult.topMatchesOf : FindResult → Option (List MatchResult)
  | .failure _ => none
  | .report r => some r.top_matches

/-- Round half to even, Python `round` on an idealized (rational) float. -/
def roundHalfEven (q : ℚ) : ℤ :=
  let f := ⌊q⌋
  let r := q - (f : ℚ)
  if r < 1/2 then f
  else if 1/2 < r then f + 1
  else if f % 2 = 0 then f else f + 1

/-- Python `round(x, 3)`. -/
def round3 (q : ℚ) : ℚ := ((roundHalfEven (q * 1000) : ℚ)) / 1000

/-- The comparison of `candidate_scores.sort(key=lambda x: x['score'],
reverse=True)`: descending on the stored (rounded) score. -/
def scoreGE (a b : MatchResult) : Prop := b.score ≤ a.score

instance : DecidableRel scoreGE := fun a b => inferInstanceAs (Decidable (b.score ≤ a.score))

/-- Python `list.sort` is stable; modelled by stable insertion sort. -/
def sortScores (l : List MatchResult) : List MatchResult := l.insertionSort scoreGE

/-- Python slice `l[:k]` for an arbitrary integer bound `k`: a negative
bound counts from the end. -/
def pyTake (k : Int) (l : List α) : List α :=
  if 0 ≤ k then l.take k.toNat else l.take ((l.length : Int) + k).toNat

/-- The score record built for one candidate row (source lines 472-488). -/
def matchResultOf (sys : Sys) (companies_df : Option (List CompanyRow))
    (jf : JobFeatures) (c : CandidateRow) : MatchResult :=
  let cf := create_candidate_features sys.nlp
    ⟨c.profile_details, c.location, c.benefits_requirements, c.corporate_culture⟩
    companies_df
  let score := calculate_matching_score sys cf jf
  { candidate_id := c.id
    candidate_name := c.name.getD ("Candidate " ++ c.id)
    score := round3 score
    location := c.location
    profile_details := c.profile_details }

/-- `candidate_scores` in input order. -/
def candidateScores (sys : Sys) (companies_df : Option (List CompanyRow))
    (jf : JobFeatures) (cands : List CandidateRow) : List MatchResult :=
  cands.map (matchResultOf sys companies_df jf)

/-- `employers_df[employers_df['id'] == job_id]` followed by `.iloc[0]`:
the first row whose id equals the requested id, if any. -/
def jobLookup (jobs : List JobRow) (job_id : String) : Option JobRow :=
  (jobs.filter (fun r => r.id == job_id)).head?

/-- The job-features bundle `find_top_matches` builds for the looked-up
row (the dict literal of source lines 464-467). -/
def jfOfJob (sys : Sys) (job : JobRow) : JobFeatures :=
  create_job_features sys.nlp ⟨job.job_requirements, some (job.location.getD "Unknown")⟩

/-- `find_top_matches` (source lines 449-502). -/
def find_top_matches (sys : Sys) (job_id : String) (cands : List CandidateRow)
    (jobs : List JobRow) (companies_df : Option (List CompanyRow))
    (top_k : Int) : FindResult :=
  match jobLookup jobs job_id with
  | none => .failure ("Job " ++ job_id ++ " not found")
  | some job =>
    let scores := candidateScores sys companies_df (jfOfJob sys job) cands
    let top := pyTake top_k (sortScores scores)
    .report
      { job_id := job_id
        job_requirements := job.job_requirements
        top_matches := top
        skills_analysis :=
          extract_skills_analysis sys.nlp (cands.map (fun c => c.profile_details))
            job.job_requirements }

/-! ### Index tagging, for stating stability -/

def withIdxFrom : Nat → List α → List (Nat × α)
  | _, [] => []
  | n, a :: t => (n, a) :: withIdxFrom (n + 1) t

/-- Tag each element with its position in the input list. -/
def withIdx (l : List α) : List (Nat × α) := withIdxFrom 0 l

/-- The sort comparison lifted to index-tagged records (it ignores the
index, exactly as the Python key function does). -/
def scoreGEP (a b : Nat × MatchResult) : Prop := b.2.score ≤ a.2.score

instance : DecidableRel scoreGEP := fun a b => inferInstanceAs (Decidable (b.2.score ≤ a.2.score))

/-- Strict descending-lexicographic order on (score, original position):
the characterization of a stable descending sort. -/
def lexGT (a b : Nat × MatchResult) : Prop :=
  b.2.score < a.2.score ∨ (a.2.score = b.2.score ∧ a.1 < b.1)

/-! ### Spec-side formulas, written from the claims under scrutiny -/

/-- Claim formula: Jaccard similarity of the word sets, 0 when the union
is empty. -/
def specJaccard (a b : String) : ℚ :=
  if ((wordSet a) ∪ (wordSet b)).card = 0 then 0
  else (((wordSet a) ∩ (wordSet b)).card : ℚ) / (((wordSet a) ∪ (wordSet b)).card : ℚ)

/-- Claim formula: skill overlap, neutral 0.5 on an empty job skill set. -/
def specSkillOverlap (cand job : Finset String) : ℚ :=
  if job = ∅ then 1/2 else ((cand ∩ job).card : ℚ) / (job.card : ℚ)

/-- Claim formula: experience-match signal. -/
def specExperienceMatch (c r : ℚ) : ℚ := max 0 (1 - |c - r| / 10)

/-- Claim formula: location proximity, 0 on the infinite distance. -/
def specProximity : Option ℚ → ℚ
  | none => 0
  | some d => max 0 (1 - d / 1000)

/-- Claim formula of C1: the plain weighted sum of the four signals. -/
def specScore (sys : Sys) (cf : CandidateFeatures) (jf : JobFeatures) : ℚ :=
  0.4 * specJaccard cf.profile_text jf.job_requirements
  + 0.3 * specSkillOverlap ((cf.skills.map (fun s => s.skill)).toFinset)
      ((jf.skills.map (fun s => s.skill)).toFinset)
  + 0.2 * specExperienceMatch cf.avg_years_experience jf.required_years
  + 0.1 * specProximity (calculate_distance sys cf.location jf.location)

/-- Claim formula of C4: the maximum `level/10` over the level keywords
found in one position string (0 when none is found, fed into an outer
`max(0.1, ...)`). -/
def specSeniorityLevelScore (position : String) : ℚ :=
  positionLevels.foldl
    (fun m ls => if strIn ls.1 (pyLower position) then max m ((ls.2 : ℚ) / 10) else m) 0

/-- Claim formula of C4: `max(0.1, max over position strings of
seniorityLevelScore)`, defaulting to 1.0 when there is no position. -/
def specPositionScore (positions : List String) : ℚ :=
  match positions with
  | [] => 1
  | _ => max (1/10) ((positions.map specSeniorityLevelScore).foldl max 0)

/-- Claim formula of C5: max normalized score over the level keywords
occurring in the lower-cased requirements, 1.0 only when none occurs. -/
def specRequiredSeniority (reqs : String) : ℚ :=
  if positionLevels.all (fun ls => !(strIn ls.1 (pyLower reqs))) then 1
  else
    positionLevels.foldl
      (fun m ls => if strIn ls.1 (pyLower reqs) then max m ((ls.2 : ℚ) / 10) else m) 0

/-! ### Contribution bookkeeping for the year-extraction dict -/

/-- The year counts contributed for one skill key, in contribution order. -/
def contribVals (cs : List (String × Nat)) (k : String) : List Nat :=
  (cs.filter (fun c => c.1 = k)).map (fun c => c.2)

/-- Python `max` of a list, `none` on the empty list. -/
def specMax (l : List Nat) : Option Nat :=
  match l with
  | [] => none
  | h :: t => some (t.foldl max h)

/-- Pointwise account of an observed geocoding outcome that the distance
code treats as missing: an outright failure, or a resolved latitude equal
to 0.0 (which the truthiness test `coords[0]` conflates with failure). -/
def latFalsy : GeoOutcome → Prop
  | .found lat _ => lat = 0
  | .notFound => True
  | .raised => True

/-! ### Concrete fixtures for counterexamples and witnesses -/

/-- A system with no tagger and a geocoder that always fails. -/
def sysNoGeo : Sys := ⟨none, fun _ => .notFound, fun _ _ => 0⟩

/-- A system whose geocoder resolves every location, with latitude 0.0
for the location "EQ", and whose geodesic oracle returns 42 miles. -/
def sysEquator : Sys :=
  ⟨none, fun s => if s = "EQ" then .found 0 10 else .found 5 6, fun _ _ => 42⟩

def candARow : CandidateRow := ⟨"c1", some "A", "a", "x", "", ""⟩
def candBRow : CandidateRow := ⟨"c2", some "B", "b", "x", "", ""⟩
def jobJRow : JobRow := ⟨"j1", "c", some "y"⟩

def juniorCand : CandInput := ⟨"python junior developer", "x", "", ""⟩

/-! ## Helper lemmas -/

/-! ### Index tagging -/

theorem withIdxFrom_map_snd : ∀ (n : Nat) (l : List α), (withIdxFrom n l).map Prod.snd = l := by
  intro n l
  induction l generalizing n with
  | nil => rfl
  | cons a t ih => simp [withIdxFrom, ih]

theorem fst_le_of_mem_withIdxFrom :
    ∀ {l : List α} {n : Nat} {p : Nat × α}, p ∈ withIdxFrom n l → n ≤ p.1 := by
  intro l
  induction l with
  | nil => intro n p h; simp [withIdxFrom] at h
  | cons a t ih =>
    intro n p h
    rcases List.mem_cons.mp h with h1 | h2
    · subst h1; exact le_refl n
    · exact le_trans (Nat.le_succ n) (ih h2)

theorem pairwise_fst_lt_withIdxFrom :
    ∀ (l : List α) (n : Nat), List.Pairwise (fun a b => a.1 < b.1) (withIdxFrom n l) := by
  intro l
  induction l with
  | nil => intro n; exact List.Pairwise.nil
  | cons a t ih =>
    intro n
    refine List.Pairwise.cons ?_ (ih (n + 1))
    intro b hb
    exact lt_of_lt_of_le (Nat.lt_succ_self n) (fst_le_of_mem_withIdxFrom hb)

/-! ### Stability of the descending sort -/

theorem pairwise_lexGT_orderedInsert (x : Nat × MatchResult) :
    ∀ (l : List (Nat × MatchResult)), List.Pairwise lexGT l → (∀ y ∈ l, x.1 < y.1) →
      List.Pairwise lexGT (List.orderedInsert scoreGEP x l) := by
  intro l
  induction l with
  | nil => intro _ _; simp [List.orderedInsert]
  | cons h t ih =>
    intro hp hx
    by_cases hc : scoreGEP x h
    · rw [List.orderedInsert, if_pos hc]
      refine List.Pairwise.cons ?_ hp
      intro y hy
      rcases List.mem_cons.mp hy with h1 | h2
      · subst h1
        rcases lt_or_eq_of_le hc with hlt | heq
        · exact Or.inl hlt
        · exact Or.inr ⟨heq.symm, hx y (List.mem_cons_self y t)⟩
      · have hhy := List.rel_of_pairwise_cons hp h2
        rcases hhy with hlt | ⟨heq, _⟩
        · exact Or.inl (lt_of_lt_of_le hlt hc)
        · rcases lt_or_eq_of_le (le_trans (le_of_eq heq.symm) hc) with hlt2 | heq2
          · exact Or.inl hlt2
          · exact Or.inr ⟨heq2.symm, hx y (List.mem_cons_of_mem h h2)⟩
    · rw [List.orderedInsert, if_neg hc]
      have hxh : x.2.score < h.2.score := not_le.mp hc
      refine List.Pairwise.cons ?_ (ih (List.Pairwise.of_cons hp)
        (fun y hy => hx y (List.mem_cons_of_mem h hy)))
      intro y hy
      rcases (List.mem_orderedInsert scoreGEP).mp hy with h1 | h2
      · subst h1; exact Or.inl hxh
      · exact List.rel_of_pairwise_cons hp h2

theorem pairwise_lexGT_insertionSort :
    ∀ (l : List (Nat × MatchResult)), List.Pairwise (fun a b => a.1 < b.1) l →
      List.Pairwise lexGT (l.insertionSort scoreGEP) := by
  intro l
  induction l with
  | nil => intro _; simp
  | cons x t ih =>
    intro hp
    rw [List.insertionSort]
    refine pairwise_lexGT_orderedInsert x _ (ih (List.Pairwise.of_cons hp)) ?_
    intro y hy
    exact List.rel_of_pairwise_cons hp ((List.mem_insertionSort scoreGEP).mp hy)

theorem map_snd_insertionSort (l : List (Nat × MatchResult)) :
    ((l.insertionSort scoreGEP).map Prod.snd) = (l.map Prod.snd).insertionSort scoreGE :=
  List.map_insertionSort scoreGEP scoreGE Prod.snd l (fun _ _ _ _ => Iff.rfl)

/-- The sort the ranking performs equals the index-forgetting projection
of the stable sort of the index-tagged records. -/
theorem sortScores_stable (L : List MatchResult) :
    sortScores L = ((withIdx L).insertionSort scoreGEP).map Prod.snd := by
  rw [map_snd_insertionSort, withIdx, withIdxFrom_map_snd]
  rfl

theorem pairwise_lexGT_sorted_withIdx (L : List MatchResult) :
    List.Pairwise lexGT ((withIdx L).insertionSort scoreGEP) :=
  pairwise_lexGT_insertionSort _ (pairwise_fst_lt_withIdxFrom L 0)

theorem sortScores_perm (L : List MatchResult) : (sortScores L).Perm L :=
  List.perm_insertionSort scoreGE L

/-! ### The running maximum initialized at 1.0 never moves -/

theorem foldl_levels_one (s : String) :
    ∀ (lvls : List (String × Nat)), (∀ p ∈ lvls, ((p.2 : ℚ) / 10) ≤ 1) →
      List.foldl
        (fun acc ls => if strIn ls.1 s then max acc ((ls.2 : ℚ) / 10) else acc) 1 lvls = 1 := by
  intro lvls
  induction lvls with
  | nil => intro _; rfl
  | cons p t ih =>
    intro h
    have h1 : ((p.2 : ℚ) / 10) ≤ 1 := h p (List.mem_cons_self p t)
    have hstep : (if strIn p.1 s then max (1 : ℚ) ((p.2 : ℚ) / 10) else 1) = 1 := by
      split
      · exact max_eq_left h1
      · rfl
    simp only [List.foldl_cons]
    rw [hstep]
    exact ih (fun q hq => h q (List.mem_cons_of_mem p hq))

theorem positionLevels_le_one : ∀ p ∈ positionLevels, ((p.2 : ℚ) / 10) ≤ 1 := by
  with_unfolding_all decide

theorem cps_foldl_aux :
    ∀ (ps : List String),
      List.foldl
        (fun ms position =>
          positionLevels.foldl
            (fun ms' ls =>
              if strIn ls.1 (pyLower position) then max ms' ((ls.2 : ℚ) / 10) else ms')
            ms)
        1 ps = 1 := by
  intro ps
  induction ps with
  | nil => rfl
  | cons q u ih =>
    simp only [List.foldl_cons]
    rw [foldl_levels_one (pyLower q) positionLevels positionLevels_le_one]
    exact ih

/-- The initialization of the running maximum at 1.0 makes the level scan
of `calculate_position_score` inert: the result is 1.0 on every input. -/
theorem calculate_position_score_one (ps : List String) : calculate_position_score ps = 1 := by
  cases ps with
  | nil => rfl
  | cons p t =>
    show List.foldl _ 1 (p :: t) = 1
    exact cps_foldl_aux (p :: t)

/-! ### Dict-update bookkeeping for the year extraction -/

theorem alookup_map_upd (k : String) (v : Nat) :
    ∀ (m : List (String × Nat)) (w : Nat), alookup m k = some w →
      alookup (m.map (fun q => if q.1 = k then (q.1, max q.2 v) else q)) k
        = some (max w v) := by
  intro m
  induction m with
  | nil => intro w hw; simp [alookup] at hw
  | cons p t ih =>
    intro w hw
    by_cases hp : p.1 = k
    · rw [alookup, if_pos hp] at hw
      injection hw with hw
      simp only [List.map_cons, if_pos hp]
      rw [alookup, if_pos hp, hw]
    · rw [alookup, if_neg hp] at hw
      simp only [List.map_cons, if_neg hp]
      rw [alookup, if_neg hp]
      exact ih w hw

theorem alookup_append_absent (k : String) (v : Nat) :
    ∀ (m : List (String × Nat)), alookup m k = none →
      alookup (m ++ [(k, v)]) k = some v := by
  intro m
  induction m with
  | nil => intro _; simp [alookup]
  | cons p t ih =>
    intro hm
    by_cases hp : p.1 = k
    · rw [alookup, if_pos hp] at hm; exact absurd hm (by simp)
    · rw [alookup, if_neg hp] at hm
      rw [List.cons_append, alookup, if_neg hp]
      exact ih hm

theorem alookup_updMax_self (m : List (String × Nat)) (k : String) (v : Nat) :
    alookup (updMax m k v) k = some (max ((alookup m k).getD 0) v) := by
  cases hm : alookup m k with
  | some w =>
    have hs : (alookup m k).isSome := by rw [hm]; rfl
    rw [updMax, if_pos hs]
    rw [alookup_map_upd k v m w hm]
    simp [hm]
  | none =>
    have hs : ¬ (alookup m k).isSome := by rw [hm]; simp
    rw [updMax, if_neg hs]
    rw [alookup_append_absent k v m hm]
    simp [hm]

theorem alookup_updMax_ne (k k' : String) (v : Nat) (h : k ≠ k') :
    ∀ (m : List (String × Nat)), alookup (updMax m k v) k' = alookup m k' := by
  have hmap : ∀ (m : List (String × Nat)),
      alookup (m.map (fun q => if q.1 = k then (q.1, max q.2 v) else q)) k'
        = alookup m k' := by
    intro m
    induction m with
    | nil => rfl
    | cons p t ih =>
      by_cases hp : p.1 = k
      · simp only [List.map_cons, if_pos hp]
        rw [alookup, alookup]
        have : ¬ p.1 = k' := by rw [hp]; exact h
        rw [if_neg this, if_neg this]
        exact ih
      · simp only [List.map_cons, if_neg hp]
        rw [alookup, alookup]
        by_cases hq : p.1 = k'
        · rw [if_pos hq, if_pos hq]
        · rw [if_neg hq, if_neg hq]; exact ih
  have happ : ∀ (m : List (String × Nat)),
      alookup (m ++ [(k, v)]) k' = alookup m k' := by
    intro m
    induction m with
    | nil => simp [alookup, h]
    | cons p t ih =>
      rw [List.cons_append, alookup, alookup]
      by_cases hq : p.1 = k'
      · rw [if_pos hq, if_pos hq]
      · rw [if_neg hq, if_neg hq]; exact ih
  intro m
  rw [updMax]
  split
  · exact hmap m
  · exact happ m

theorem alookup_foldl_updMax (k : String) :
    ∀ (cs : List (String × Nat)) (m : List (String × Nat)),
      alookup (cs.foldl (fun m c => updMax m c.1 c.2) m) k
        = cs.foldl
            (fun acc c => if c.1 = k then some (max (acc.getD 0) c.2) else acc)
            (alookup m k) := by
  intro cs
  induction cs with
  | nil => intro m; rfl
  | cons c t ih =>
    intro m
    simp only [List.foldl_cons]
    rw [ih (updMax m c.1 c.2)]
    by_cases hc : c.1 = k
    · rw [if_pos hc]
      subst hc
      rw [alookup_updMax_self]
    · rw [if_neg hc]
      rw [alookup_updMax_ne c.1 k c.2 hc m]

/-! ### Maximum bookkeeping -/

theorem contribVals_cons (c : String × Nat) (t : List (String × Nat)) (k : String) :
    contribVals (c :: t) k
      = if c.1 = k then c.2 :: contribVals t k else contribVals t k := by
  by_cases hc : c.1 = k
  · simp [contribVals, hc]
  · simp [contribVals, hc]

theorem fold_step_some (k : String) :
    ∀ (cs : List (String × Nat)) (w : Nat),
      cs.foldl (fun acc c => if c.1 = k then some (max (acc.getD 0) c.2) else acc) (some w)
        = some ((contribVals cs k).foldl max w) := by
  intro cs
  induction cs with
  | nil => intro w; rfl
  | cons c t ih =>
    intro w
    by_cases hc : c.1 = k
    · simp only [List.foldl_cons, if_pos hc, Option.getD_some, contribVals_cons]
      exact ih (max w c.2)
    · simp only [List.foldl_cons, if_neg hc, contribVals_cons]
      exact ih w

theorem fold_step_none (k : String) :
    ∀ (cs : List (String × Nat)),
      cs.foldl (fun acc c => if c.1 = k then some (max (acc.getD 0) c.2) else acc) none
        = specMax (contribVals cs k) := by
  intro cs
  induction cs with
  | nil => rfl
  | cons c t ih =>
    by_cases hc : c.1 = k
    · simp only [List.foldl_cons, if_pos hc, Option.getD_none, Nat.zero_max]
      rw [fold_step_some k t c.2]
      rw [contribVals_cons, if_pos hc]
      rfl
    · simp only [List.foldl_cons, if_neg hc]
      rw [ih, contribVals_cons, if_neg hc]

/-- The final dict value for a key is exactly the Python max of that key's
contributions. -/
theorem lookupYears_extract_eq_specMax (t : String) (k : String) :
    lookupYears (extract_years_of_experience t) k = specMax (contribVals (yearContribs t) k) := by
  rw [lookupYears, extract_years_of_experience, alookup_foldl_updMax]
  exact fold_step_none k (yearContribs t)

theorem foldl_max_is_mem : ∀ (l : List Nat) (a : Nat), l.foldl max a = a ∨ l.foldl max a ∈ l := by
  intro l
  induction l with
  | nil => intro a; exact Or.inl rfl
  | cons h t ih =>
    intro a
    simp only [List.foldl_cons]
    rcases ih (max a h) with h1 | h2
    · rcases max_choice a h with hm | hm
      · exact Or.inl (h1.trans hm)
      · exact Or.inr (by rw [h1, hm]; exact List.mem_cons_self h t)
    · exact Or.inr (List.mem_cons_of_mem h h2)

theorem le_foldl_max_init : ∀ (l : List Nat) (a : Nat), a ≤ l.foldl max a := by
  intro l
  induction l with
  | nil => intro a; exact le_refl a
  | cons h t ih =>
    intro a
    simp only [List.foldl_cons]
    exact le_trans (le_max_left a h) (ih (max a h))

theorem le_foldl_max_mem : ∀ (l : List Nat) (a b : Nat), b ∈ l → b ≤ l.foldl max a := by
  intro l
  induction l with
  | nil => intro a b hb; simp at hb
  | cons h t ih =>
    intro a b hb
    simp only [List.foldl_cons]
    rcases List.mem_cons.mp hb with h1 | h2
    · subst h1; exact le_trans (le_max_right a b) (le_foldl_max_init t (max a b))
    · exact ih (max a h) b h2

/-- `specMax l = some y` means `y` is a member of `l` and an upper bound. -/
theorem specMax_spec : ∀ (l : List Nat) (y : Nat), specMax l = some y →
    y ∈ l ∧ ∀ b ∈ l, b ≤ y := by
  intro l y h
  cases l with
  | nil => simp [specMax] at h
  | cons a t =>
    rw [specMax] at h
    injection h with h
    constructor
    · rcases foldl_max_is_mem t a with h1 | h2
      · rw [← h] at *; rw [h1]; exact List.mem_cons_self a t
      · rw [← h]; exact List.mem_cons_of_mem a h2
    · intro b hb
      rcases List.mem_cons.mp hb with h1 | h2
      · subst h1; rw [← h]; exact le_foldl_max_init t b
      · rw [← h]; exact le_foldl_max_mem t a b h2

/-! ### Mention-shape bookkeeping -/

theorem mkMentions_map_skill (ys : List (String × Nat)) (cs ps : List String)
    (low : String) :
    (mkMentions ys cs ps low).map (fun m => m.skill)
      = techSkills.filter (fun sk => strIn sk low) := by
  rw [mkMentions, List.map_map]
  exact List.map_id _

theorem techSkills_nodup : techSkills.Nodup := by decide

theorem strIn_empty_false : techSkills.filter (fun sk => strIn sk "") = [] := by decide

theorem pyLower_empty : pyLower "" = "" := by decide

/-! ### Bridging lemmas for the score formula -/

theorem jaccard_bridge (a b : String) :
    calculate_text_similarity a b = specJaccard a b := by
  simp only [calculate_text_similarity, specJaccard]
  by_cases h : ((wordSet a) ∪ (wordSet b)).card = 0
  · have h1 : ¬ 0 < ((wordSet a) ∪ (wordSet b)).card := by omega
    rw [if_neg h1, if_pos h]
  · have h1 : 0 < ((wordSet a) ∪ (wordSet b)).card := Nat.pos_of_ne_zero h
    rw [if_pos h1, if_neg h]

theorem overlap_bridge (cs js : Finset String) :
    (if 0 < js.card then (((cs ∩ js).card : ℚ) / (js.card : ℚ)) else 0.5)
      = specSkillOverlap cs js := by
  simp only [specSkillOverlap]
  split_ifs with h1 h2 h3
  · rw [h2] at h1; simp at h1
  · rfl
  · norm_num
  · exact absurd (Finset.card_eq_zero.mp (by omega)) h3

theorem proximity_bridge (d : Option ℚ) : distanceScoreOf d = specProximity d := by
  cases d <;> rfl

/-! ## Claim theorems -/

/-- C1: `calculate_matching_score` is exactly the weighted sum of the
claimed four signals: 0.4 Jaccard text similarity + 0.3 skill overlap
(neutral 0.5 on an empty job skill set) + 0.2 experience match
+ 0.1 location proximity (0 on infinite distance), with no
re-normalization. -/
theorem C1_score_weighted_sum (sys : Sys) (cf : CandidateFeatures) (jf : JobFeatures) :
    calculate_matching_score sys cf jf = specScore sys cf jf := by
  simp only [calculate_matching_score, specScore, specExperienceMatch]
  rw [jaccard_bridge, overlap_bridge, proximity_bridge]
  ring

/-- C3: when no row of the jobs table carries the requested id,
`find_top_matches` returns the NotFound failure result (distinct by
construction from any report), and the result does not depend on the
candidate list: no candidate is scored or featurized. -/
theorem C3_not_found (sys : Sys) (job_id : String) (cands : List CandidateRow)
    (jobs : List JobRow) (comps : Option (List CompanyRow)) (k : Int)
    (h : jobs.filter (fun r => r.id == job_id) = []) :
    find_top_matches sys job_id cands jobs comps k
        = .failure ("Job " ++ job_id ++ " not found")
      ∧ ∀ (cands2 : List CandidateRow),
          find_top_matches sys job_id cands jobs comps k
            = find_top_matches sys job_id cands2 jobs comps k := by
  have hl : jobLookup jobs job_id = none := by rw [jobLookup, h]; rfl
  constructor
  · simp only [find_top_matches, hl]
  · intro cands2
    simp only [find_top_matches, hl]

theorem C3_witness :
    ([⟨"a", "r", none⟩] : List JobRow).filter (fun r => r.id == "b") = []
      ∧ find_top_matches sysNoGeo "b" [candARow] [⟨"a", "r", none⟩] none 5
          = .failure ("Job " ++ "b" ++ " not found") :=
  ⟨by decide,
   (C3_not_found sysNoGeo "b" [candARow] [⟨"a", "r", none⟩] none 5 (by decide)).1⟩

/-- C4 (amended): the candidate `positionScore` is 1.0 on every input:
the running maximum starts at 1.0 and the normalized level scores never
exceed 1.0, so the level scan is inert; the no-position default is the
same 1.0. -/
theorem C4_position_score_always_one (nlp : Option NLPModel) (cand : CandInput)
    (comps : Option (List CompanyRow)) :
    (create_candidate_features nlp cand comps).position_score = 1 := by
  simp only [create_candidate_features]
  split
  · rfl
  · exact calculate_position_score_one _

/-- C4 counterexample: a candidate whose only position string is
"python junior developer" (containing the level keyword junior and no
higher one) receives positionScore 1.0, not the claimed
max(0.1, 2/10) = 0.2. -/
theorem C4_counterexample :
    (create_candidate_features none juniorCand none).position_score = 1
      ∧ (create_candidate_features none juniorCand none).skills.filterMap
          (fun s => s.position) = ["python junior developer"]
      ∧ specPositionScore ["python junior developer"] = 1/5
      ∧ (1 : ℚ) ≠ 1/5 := by
  refine ⟨?_, ?_, ?_, ?_⟩ <;> with_unfolding_all decide

/-- C5 (amended): `requiredSeniority` is 1.0 for every job record: the
direct keyword scan starts its running maximum at 1.0, which no level
score exceeds, so the scan is inert and 1.0 is returned whether or not a
seniority keyword occurs. -/
theorem C5_required_seniority_always_one (nlp : Option NLPModel) (job : JobInput) :
    (create_job_features nlp job).required_seniority = 1 := by
  simp only [create_job_features]
  exact foldl_levels_one (pyLower job.job_requirements) positionLevels positionLevels_le_one

/-- C5 counterexample: requirements text "junior developer needed"
contains the keyword junior and no higher level, yet requiredSeniority is
1.0 rather than the claimed 2/10 = 0.2. -/
theorem C5_counterexample :
    (create_job_features none ⟨"junior developer needed", some "y"⟩).required_seniority = 1
      ∧ specRequiredSeniority "junior developer needed" = 1/5
      ∧ (1 : ℚ) ≠ 1/5 := by
  refine ⟨?_, ?_, ?_⟩ <;> with_unfolding_all decide

/-- C6 (amended): `calculate_distance` never raises (it is a total
function of its oracles); it returns the infinite distance exactly when,
on at least one side, geocoding fails or the resolved latitude equals 0.0
(the truthiness test conflates the two); otherwise it returns the
geodesic mile distance between the two resolved coordinate pairs. -/
theorem C6_distance_characterization (sys : Sys) (a b : String) :
    (calculate_distance sys a b = none
        ↔ (latFalsy (sys.geocode a) ∨ latFalsy (sys.geocode b)))
      ∧ (∀ (la lo lb lob : ℚ), sys.geocode a = .found la lo →
          sys.geocode b = .found lb lob → la ≠ 0 → lb ≠ 0 →
          calculate_distance sys a b
            = some (sys.geodesicMiles (la, lo) (lb, lob))) := by
  constructor
  · simp only [calculate_distance, get_coordinates]
    cases ha : sys.geocode a <;> cases hb : sys.geocode b <;>
      (simp [pyTruthy, latFalsy]; try tauto)
  · intro la lo lb lob ha hb hla hlb
    simp only [calculate_distance, get_coordinates, ha, hb]
    simp [pyTruthy, hla, hlb]

theorem C6_witness :
    calculate_distance sysEquator "B" "C"
      = some (sysEquator.geodesicMiles (5, 6) (5, 6)) :=
  (C6_distance_characterization sysEquator "B" "C").2 5 6 5 6
    (by decide) (by decide) (by decide) (by decide)

/-- C6 counterexample: both geocodes succeed (latitudes 0 and 5), yet the
distance is the infinite one rather than the oracle's 42 miles, because
latitude 0.0 is falsy. -/
theorem C6_counterexample :
    calculate_distance sysEquator "EQ" "B" = none
      ∧ sysEquator.geocode "EQ" = .found 0 10
      ∧ sysEquator.geocode "B" = .found 5 6
      ∧ (none : Option ℚ) ≠ some 42 := by
  refine ⟨?_, ?_, ?_, ?_⟩ <;> with_unfolding_all decide

/-- C7 (amended): the year-extraction dict maps a skill to the maximum of
all year counts contributed for it by the matched phrasings (and to
nothing when there is no contribution); in particular the exact text
"5 years of python" maps python to 5, and a text consisting of the two
phrasings "python for 3 years" and "python for 5 years" maps python to
the maximum 5. -/
theorem C7_years_max_semantics :
    (∀ (t k : String), lookupYears (extract_years_of_experience t) k
        = specMax (contribVals (yearContribs t) k))
      ∧ (∀ (t k : String) (y : Nat),
          lookupYears (extract_years_of_experience t) k = some y →
            y ∈ contribVals (yearContribs t) k
              ∧ ∀ b ∈ contribVals (yearContribs t) k, b ≤ y)
      ∧ lookupYears (extract_years_of_experience "5 years of python") "python" = some 5
      ∧ lookupYears
          (extract_years_of_experience "python for 3 years and python for 5 years")
          "python" = some 5 := by
  refine ⟨lookupYears_extract_eq_specMax, ?_, by decide, by decide⟩
  intro t k y h
  rw [lookupYears_extract_eq_specMax] at h
  exact specMax_spec _ y h

theorem C7_witness :
    lookupYears (extract_years_of_experience "5 years of python") "python" = some 5
      ∧ (5 ∈ contribVals (yearContribs "5 years of python") "python"
         ∧ ∀ b ∈ contribVals (yearContribs "5 years of python") "python", b ≤ 5) :=
  ⟨by decide, C7_years_max_semantics.2.1 "5 years of python" "python" 5 (by decide)⟩

/-- C7 counterexample: the text "15 years of python" contains
"5 years of python" as a substring, yet the extracted mapping sends
python to 15, not to 5: the for-all-texts-containing reading of the claim
fails. -/
theorem C7_counterexample :
    strIn "5 years of python" "15 years of python" = true
      ∧ lookupYears (extract_years_of_experience "15 years of python") "python" = some 15
      ∧ (some 15 : Option Nat) ≠ some 5 := by
  refine ⟨by decide, by decide, by decide⟩

/-- C8: under either strategy, extraction is total, produces exactly one
mention per vocabulary skill occurring literally in the lower-cased text
(in particular the mention list is deduplicated by skill and never leaves
the fixed vocabulary), and the empty text yields no mentions. -/
theorem C8_mentions_characterization (nlp : Option NLPModel) (text : String) :
    ((extract_skills_with_spacy nlp text).map (fun m => m.skill)
        = techSkills.filter (fun sk => strIn sk (pyLower text)))
      ∧ (∀ m ∈ extract_skills_with_spacy nlp text, m.skill ∈ techSkills)
      ∧ ((extract_skills_with_spacy nlp text).map (fun m => m.skill)).Nodup
      ∧ (text = "" → extract_skills_with_spacy nlp text = []) := by
  have hmap : (extract_skills_with_spacy nlp text).map (fun m => m.skill)
      = techSkills.filter (fun sk => strIn sk (pyLower text)) := by
    cases nlp with
    | none =>
      simp only [extract_skills_with_spacy, extract_skills_basic]
      exact mkMentions_map_skill _ _ _ _
    | some m =>
      simp only [extract_skills_with_spacy, extract_skills_tagger]
      exact mkMentions_map_skill _ _ _ _
  refine ⟨hmap, ?_, ?_, ?_⟩
  · intro m hm
    have hmem : m.skill ∈ (extract_skills_with_spacy nlp text).map (fun m => m.skill) :=
      List.mem_map_of_mem _ hm
    rw [hmap] at hmem
    exact List.mem_of_mem_filter hmem
  · rw [hmap]
    exact techSkills_nodup.filter _
  · intro h
    subst h
    have h2 : (extract_skills_with_spacy nlp "").map (fun m => m.skill) = [] := by
      rw [hmap]
      simp only [pyLower_empty]
      exact strIn_empty_false
    exact List.map_eq_nil_iff.mp h2

theorem C8_witness : extract_skills_with_spacy none "" = [] :=
  (C8_mentions_characterization none "").2.2.2 rfl

/-- C9 (amended): the Jaccard text similarity is symmetric; it is 1.0 on
any pair (A, A) whose word set is non-empty; the non-empty single-space
text has an empty word set and yields 0; and the empty/empty case is 0
by the union-is-zero guard. -/
theorem C9_text_similarity_algebra :
    (∀ (a b : String), calculate_text_similarity a b = calculate_text_similarity b a)
      ∧ (∀ (a : String), (wordSet a).Nonempty → calculate_text_similarity a a = 1)
      ∧ calculate_text_similarity " " " " = 0
      ∧ calculate_text_similarity "" "" = 0 := by
  refine ⟨?_, ?_, by with_unfolding_all decide, by decide⟩
  · intro a b
    simp only [calculate_text_similarity]
    rw [Finset.inter_comm, Finset.union_comm]
  · intro a ha
    simp only [calculate_text_similarity]
    rw [Finset.inter_self, Finset.union_self]
    have hc : 0 < (wordSet a).card := Finset.card_pos.mpr ha
    rw [if_pos hc]
    exact div_self (Nat.cast_ne_zero.mpr (Nat.pos_iff_ne_zero.mp hc))

theorem C9_witness : (wordSet "x").Nonempty ∧ calculate_text_similarity "x" "x" = 1 :=
  ⟨by decide, C9_text_similarity_algebra.2.1 "x" (by decide)⟩

/-- C9 counterexample: the single-space text is non-empty, but its word
set is empty, so sim(A, A) is 0, not the claimed 1.0. -/
theorem C9_counterexample :
    calculate_text_similarity " " " " = 0 ∧ (" " : String) ≠ "" ∧ (0 : ℚ) ≠ 1 := by
  refine ⟨by with_unfolding_all decide, by decide, by decide⟩

/-- C2 (amended): for a job found in the table, the returned top_matches
is exactly the Python slice `sorted[:topK]` of the stable descending sort
of the per-candidate score records: the sort is a permutation of the
input-order records, equal to the index-forgetting projection of the
index-tagged sort, which is strictly ordered by (score descending,
original input position ascending) — ties keep input order; truncation
takes the first topK records when topK is non-negative (0 gives the empty
list, topK beyond the count gives all), and a negative topK drops the
last min(-topK, count) records by Python slice semantics. -/
theorem C2_ranking_stable_sort_slice (sys : Sys) (job_id : String)
    (cands : List CandidateRow) (jobs : List JobRow)
    (comps : Option (List CompanyRow)) (k : Int) (job : JobRow)
    (h : jobLookup jobs job_id = some job) :
    (find_top_matches sys job_id cands jobs comps k).topMatchesOf
        = some (pyTake k (sortScores (candidateScores sys comps (jfOfJob sys job) cands)))
      ∧ (sortScores (candidateScores sys comps (jfOfJob sys job) cands)).Perm
          (candidateScores sys comps (jfOfJob sys job) cands)
      ∧ sortScores (candidateScores sys comps (jfOfJob sys job) cands)
          = ((withIdx (candidateScores sys comps (jfOfJob sys job) cands)).insertionSort
              scoreGEP).map Prod.snd
      ∧ List.Pairwise lexGT
          ((withIdx (candidateScores sys comps (jfOfJob sys job) cands)).insertionSort
            scoreGEP)
      ∧ (0 ≤ k →
          pyTake k (sortScores (candidateScores sys comps (jfOfJob sys job) cands))
            = (sortScores (candidateScores sys comps (jfOfJob sys job) cands)).take k.toNat)
      ∧ (k < 0 →
          pyTake k (sortScores (candidateScores sys comps (jfOfJob sys job) cands))
            = (sortScores (candidateScores sys comps (jfOfJob sys job) cands)).take
                ((candidateScores sys comps (jfOfJob sys job) cands).length
                  - (-k).toNat)) := by
  refine ⟨?_, sortScores_perm _, sortScores_stable _, pairwise_lexGT_sorted_withIdx _,
    ?_, ?_⟩
  · simp only [find_top_matches, h, FindResult.topMatchesOf]
  · intro hk
    rw [pyTake, if_pos hk]
  · intro hk
    rw [pyTake, if_neg (not_le.mpr hk)]
    have hlen := (sortScores_perm (candidateScores sys comps (jfOfJob sys job) cands)).length_eq
    congr 1
    omega

theorem C2_witness :
    (find_top_matches sysNoGeo "j1" [candARow, candBRow] [jobJRow] none 1).topMatchesOf
      = some (pyTake 1 (sortScores
          (candidateScores sysNoGeo none (jfOfJob sysNoGeo jobJRow)
            [candARow, candBRow]))) :=
  (C2_ranking_stable_sort_slice sysNoGeo "j1" [candARow, candBRow] [jobJRow] none 1
    jobJRow (by decide)).1

/-- C2 counterexample: with two candidates and topK = -1 (which is ≤ 0),
the result is a report whose top_matches has one entry, not the empty
sequence the claim requires for topK ≤ 0: Python slicing drops only the
last entry. -/
theorem C2_counterexample :
    ((find_top_matches sysNoGeo "j1" [candARow, candBRow] [jobJRow] none
          (-1)).topMatchesOf.getD []).length = 1
      ∧ (-1 : Int) ≤ 0 ∧ (1 : Nat) ≠ 0 := by
  refine ⟨by with_unfolding_all decide, by decide, by decide⟩

/-- C10: every stored score is the raw weighted matching score rounded to
3 decimals (round half to even on the idealized rationals), and the
ranking order is the stable descending sort of the records carrying those
rounded scores: the index-tagged sorted list is strictly ordered by
(rounded score descending, original input position ascending), so two
candidates whose raw scores round to the same 3-decimal value are tied
and ordered by input position even when the raw scores differ. -/
theorem C10_rounded_scores_sorted (sys : Sys) (job_id : String)
    (cands : List CandidateRow) (jobs : List JobRow)
    (comps : Option (List CompanyRow)) (k : Int) (job : JobRow)
    (h : jobLookup jobs job_id = some job) :
    (∀ c ∈ cands, (matchResultOf sys comps (jfOfJob sys job) c).score
        = round3 (calculate_matching_score sys
            (create_candidate_features sys.nlp
              ⟨c.profile_details, c.location, c.benefits_requirements,
               c.corporate_culture⟩ comps)
            (jfOfJob sys job)))
      ∧ (find_top_matches sys job_id cands jobs comps k).topMatchesOf
          = some (pyTake k
              (((withIdx (candidateScores sys comps (jfOfJob sys job) cands)).insertionSort
                  scoreGEP).map Prod.snd))
      ∧ List.Pairwise lexGT
          ((withIdx (candidateScores sys comps (jfOfJob sys job) cands)).insertionSort
            scoreGEP) := by
  refine ⟨?_, ?_, pairwise_lexGT_sorted_withIdx _⟩
  · intro c hc
    rfl
  · simp only [find_top_matches, h, FindResult.topMatchesOf]
    rw [← sortScores_stable]

theorem C10_witness :
    (find_top_matches sysNoGeo "j1" [candARow] [jobJRow] none 5).topMatchesOf
      = some (pyTake 5
          (((withIdx (candidateScores sysNoGeo none (jfOfJob sysNoGeo jobJRow)
              [candARow])).insertionSort scoreGEP).map Prod.snd)) :=
  (C10_rounded_scores_sorted sysNoGeo "j1" [candARow] [jobJRow] none 5 jobJRow
    (by decide)).2.1
